import Mathlib

/-!
# Verification of the Athan kiosk prayer-time core

A shallow embedding of the prayer-time / countdown derivation and the adhaan
playback state machine of `src/src/App.tsx` (mirrored by `src/unnamed/part_000`),
together with proofs of the specified properties.

JavaScript numbers are modelled as `Int` (all arithmetic in the embedded code is
small-integer arithmetic); clock fields are `Nat`s coerced to `Int` where the
source does arithmetic on them.
-/

namespace Athan

/-- The five prayer names (source: `type PrayerKey`). -/
inductive PrayerKey where
  | Fajr
  | Dhuhr
  | Asr
  | Maghrib
  | Isha
deriving DecidableEq, Repr

/-- `PRAYERS` constant: the display/scan order of the five prayers. -/
def PRAYERS : List PrayerKey := [.Fajr, .Dhuhr, .Asr, .Maghrib, .Isha]

/-- `type PrayerTimes = Record<PrayerKey, string>`: the five clock strings.
The record type makes all five names present by construction. -/
structure PrayerTimes where
  Fajr : String
  Dhuhr : String
  Asr : String
  Maghrib : String
  Isha : String
deriving DecidableEq, Repr

/-- Indexing `prayerTimes[p]`. -/
def PrayerTimes.get (pt : PrayerTimes) : PrayerKey → String
  | .Fajr => pt.Fajr
  | .Dhuhr => pt.Dhuhr
  | .Asr => pt.Asr
  | .Maghrib => pt.Maghrib
  | .Isha => pt.Isha

/-- The initial `prayerTimes` state: all five entries `"00:00"` until (and
unless) the fetch resolves. -/
def defaultPrayerTimes : PrayerTimes :=
  { Fajr := "00:00", Dhuhr := "00:00", Asr := "00:00", Maghrib := "00:00", Isha := "00:00" }

/-- A `ClockSample`: the fields of `new Date()` the prayer core reads
(`getHours()`, `getMinutes()`, `getSeconds()`). -/
structure ClockSample where
  hours : Nat
  minutes : Nat
  seconds : Nat
deriving DecidableEq, Repr

/-- `pad`: `String(n).padStart(2, "0")`. -/
def pad (n : Int) : String :=
  let s := toString n
  if s.length < 2 then "0" ++ s else s

/-- `t.split(":")` on the character list: splits at every `':'`, keeping empty
parts, and yields `[[]]` on the empty string, as in JavaScript. -/
def splitCols : List Char → List (List Char)
  | [] => [[]]
  | c :: rest =>
    if c = ':' then [] :: splitCols rest
    else
      match splitCols rest with
      | h :: t => (c :: h) :: t
      | [] => [[c]]

/-- JavaScript `Number(s)` restricted to the strings this app feeds it:
`""` is `0`, a decimal-digit string is its value, anything else is `NaN`,
modelled as `none`. -/
def jsNumber? (cs : List Char) : Option Nat :=
  if cs.all Char.isDigit then
    some (cs.foldl (fun a c => a * 10 + (c.toNat - 48)) 0)
  else
    none

/-- `hhmmToMinutes`: split on `":"`, convert the first two parts with `Number`,
return `h * 60 + m`.  A part whose `Number` is `NaN` makes the result `NaN` in
the source, which can never compare `≥`/`<` true; such inputs (never produced
by `clean` or the defaults) collapse to `0` here. -/
def hhmmToMinutes (t : String) : Int :=
  match (splitCols t.data).map jsNumber? with
  | some h :: some m :: _ => (h : Int) * 60 + (m : Int)
  | _ => 0

/-- `nowMin = now.getHours() * 60 + now.getMinutes()`. -/
def nowMin (c : ClockSample) : Int :=
  (c.hours : Int) * 60 + (c.minutes : Int)

/-- `currentPrayer`: backward scan
`PRAYERS.slice().reverse().find((p) => nowMin >= hhmmToMinutes(prayerTimes[p])) || "Fajr"`. -/
def currentPrayer (nm : Int) (pt : PrayerTimes) : PrayerKey :=
  (PRAYERS.reverse.find? (fun p => decide (nm ≥ hhmmToMinutes (pt.get p)))).getD .Fajr

/-- `nextPrayer`: forward scan
`PRAYERS.find((p) => nowMin < hhmmToMinutes(prayerTimes[p])) || "Fajr"`. -/
def nextPrayer (nm : Int) (pt : PrayerTimes) : PrayerKey :=
  (PRAYERS.find? (fun p => decide (nm < hhmmToMinutes (pt.get p)))).getD .Fajr

/-- `diff = nextMin > nowMin ? nextMin - nowMin : 1440 - nowMin + nextMin`. -/
def diff (nextMin nm : Int) : Int :=
  if nextMin > nm then nextMin - nm else 1440 - nm + nextMin

/-- `countdown`: `pad(Math.floor(diff / 60)) + ":" + pad(diff % 60) + ":" + pad(59 - seconds)`.
JavaScript `Math.floor` of a real quotient is `Int.fdiv`; JavaScript `%` is the
truncated remainder `Int.tmod`. -/
def countdown (d : Int) (seconds : Int) : String :=
  pad (Int.fdiv d 60) ++ ":" ++ pad (Int.tmod d 60) ++ ":" ++ pad (59 - seconds)

/-- `nextMin = hhmmToMinutes(prayerTimes[nextPrayer])` for a clock sample. -/
def nextMinOf (c : ClockSample) (pt : PrayerTimes) : Int :=
  hhmmToMinutes (pt.get (nextPrayer (nowMin c) pt))

/-- The `diff` value the component computes for a clock sample. -/
def diffOf (c : ClockSample) (pt : PrayerTimes) : Int :=
  diff (nextMinOf c pt) (nowMin c)

/-- The `countdown` string the component computes for a clock sample. -/
def countdownOf (c : ClockSample) (pt : PrayerTimes) : String :=
  countdown (diffOf c pt) (c.seconds : Int)

/-- `isPrayerMoment` (auto-play effect):
`nowMin === hhmmToMinutes(prayerTimes[p]) && now.getSeconds() === 0`. -/
def isPrayerMoment (c : ClockSample) (pt : PrayerTimes) (p : PrayerKey) : Bool :=
  nowMin c == hhmmToMinutes (pt.get p) && c.seconds == 0

/-- `clean` (inside `fetchPrayerTimes`): `s.match(/\d{2}:\d{2}/)?.[0] ?? "00:00"`.
`isHHMMat cs` is the regex matching at the start of `cs`. -/
def isHHMMat : List Char → Bool
  | a :: b :: c :: d :: e :: _ =>
    a.isDigit && b.isDigit && c == ':' && d.isDigit && e.isDigit
  | _ => false

/-- Leftmost `\d{2}:\d{2}` match in a character list, as the regex engine scans
start positions left to right. -/
def findHHMM : List Char → Option String
  | [] => none
  | c :: rest =>
    if isHHMMat (c :: rest) then some (String.mk ((c :: rest).take 5))
    else findHHMM rest

/-- `clean (s) = s.match(/\d{2}:\d{2}/)?.[0] ?? "00:00"`. -/
def clean (s : String) : String :=
  (findHHMM s.data).getD "00:00"

/-- The schedule `fetchPrayerTimes` builds from the provider's `timings`
strings: each of the five fields run through `clean`. -/
def fetchTimings (t : PrayerKey → String) : PrayerTimes :=
  { Fajr := clean (t .Fajr), Dhuhr := clean (t .Dhuhr), Asr := clean (t .Asr),
    Maghrib := clean (t .Maghrib), Isha := clean (t .Isha) }

/-! ## Adhaan playback state machine

The controller's mutable state: the `isAdhanPlaying` / `isAdhanPaused` /
`adhanLocked` React state, the `lastPlayedRef` re-entrancy guard, and the audio
element's `currentTime`.  `adhan.play()` resolving successfully fires the
`"play"` listener which sets `isAdhanPlaying := true, isAdhanPaused := false`;
a rejected promise is swallowed by `.catch(() => {})` and fires nothing, which
we model by a `playOk : Bool` parameter on every operation that calls
`play()`. -/

structure AdhanState where
  isAdhanPlaying : Bool
  isAdhanPaused : Bool
  adhanLocked : Bool
  lastPlayedRef : Option PrayerKey
  currentTime : Int
deriving DecidableEq, Repr

/-- Initial state: both flags false, unlocked, no prayer remembered. -/
def initialAdhanState : AdhanState :=
  { isAdhanPlaying := false, isAdhanPaused := false, adhanLocked := false,
    lastPlayedRef := none, currentTime := 0 }

/-- The abstract `AdhaanPlaybackState` of the spec, as the UI derives it
(render branch `adhanLocked ? … : isAdhanPlaying ? (isAdhanPaused ? paused :
playing) : idle`). -/
inductive PlayState where
  | Idle
  | Playing
  | Paused
  | Locked
deriving DecidableEq, Repr

/-- Derived playback state of an `AdhanState`. -/
def AdhanState.playState (s : AdhanState) : PlayState :=
  if s.adhanLocked then .Locked
  else if s.isAdhanPlaying then
    if s.isAdhanPaused then .Paused else .Playing
  else .Idle

/-- One evaluation of the adhaan auto-play effect for a clock sample `c`:
bail out when locked, when the current prayer's audio is disabled, outside the
prayer moment, or when `lastPlayedRef` already holds the current prayer;
otherwise rewind, attempt `play()` (success firing the `"play"` listener), and
record the prayer in `lastPlayedRef`. -/
def adhanAutoPlay (playOk : Bool) (c : ClockSample) (pt : PrayerTimes)
    (adhanEnabled : PrayerKey → Bool) (s : AdhanState) : AdhanState :=
  if s.adhanLocked then s
  else
    let cur := currentPrayer (nowMin c) pt
    if !adhanEnabled cur then s
    else if isPrayerMoment c pt cur && !(s.lastPlayedRef == some cur) then
      { s with currentTime := 0,
               isAdhanPlaying := if playOk then true else s.isAdhanPlaying,
               isAdhanPaused := if playOk then false else s.isAdhanPaused,
               lastPlayedRef := some cur }
    else s

/-- `pauseAdhan`: no-op when locked or not playing; otherwise `adhan.pause()`
(firing the `"pause"` listener) followed by `setIsAdhanPlaying(true)` and
`setIsAdhanPaused(true)`. -/
def pauseAdhan (s : AdhanState) : AdhanState :=
  if s.adhanLocked then s
  else if !s.isAdhanPlaying then s
  else { s with isAdhanPlaying := true, isAdhanPaused := true }

/-- `resumeAdhan`: no-op when locked or not paused; otherwise `adhan.play()`,
whose success fires the `"play"` listener and whose rejection is swallowed. -/
def resumeAdhan (playOk : Bool) (s : AdhanState) : AdhanState :=
  if s.adhanLocked then s
  else if !s.isAdhanPaused then s
  else if playOk then { s with isAdhanPlaying := true, isAdhanPaused := false }
  else s

/-- `stopAdhanCompletely`: halt, rewind, clear both flags, and lock. -/
def stopAdhanCompletely (s : AdhanState) : AdhanState :=
  { s with isAdhanPlaying := false, isAdhanPaused := false,
           adhanLocked := true, currentTime := 0 }

/-- Run the auto-play effect over a list of clock samples, collecting the state
after each tick. -/
def runTicks (playOk : Bool) (pt : PrayerTimes) (adhanEnabled : PrayerKey → Bool)
    (s : AdhanState) : List ClockSample → List AdhanState
  | [] => []
  | c :: cs =>
    let s2 := adhanAutoPlay playOk c pt adhanEnabled s
    s2 :: runTicks playOk pt adhanEnabled s2 cs

/-- Number of transitions into `Playing` along a trace that starts at `s0`. -/
def countEnterPlaying (s0 : AdhanState) (trace : List AdhanState) : Nat :=
  ((s0 :: trace).zip trace).countP
    (fun q => !(q.1.playState == PlayState.Playing) && q.2.playState == PlayState.Playing)

/-- Number of play attempts along a trace that starts at `s0`: every taken
trigger branch overwrites `lastPlayedRef` with a prayer the guard just checked
it differs from, so attempts are exactly the changes of `lastPlayedRef`. -/
def countFires (s0 : AdhanState) (trace : List AdhanState) : Nat :=
  ((s0 :: trace).zip trace).countP
    (fun q => !(q.1.lastPlayedRef == q.2.lastPlayedRef))

/-! ## Spec-side readings

These definitions follow the specification's words, to be compared with the
code-side definitions above. -/

/-- Spec reading of `currentPrayer`: the latest prayer in the order `PRAYERS`
whose time-of-day is `≤ now`, defaulting to Fajr when none is. -/
def currentPrayerSpec (nm : Int) (pt : PrayerTimes) : PrayerKey :=
  ((PRAYERS.filter (fun p => decide (hhmmToMinutes (pt.get p) ≤ nm))).getLast?).getD .Fajr

/-- Spec reading of `nextPrayer`: the earliest prayer in the order `PRAYERS`
whose time-of-day is `> now`, defaulting to Fajr when none is. -/
def nextPrayerSpec (nm : Int) (pt : PrayerTimes) : PrayerKey :=
  ((PRAYERS.filter (fun p => decide (nm < hhmmToMinutes (pt.get p)))).head?).getD .Fajr

/-- Spec reading of the countdown minutes: `(nextMinuteOfDay - nowMinuteOfDay)
mod 1440`, with a non-strictly-positive subtraction mapped to a full day (a
difference of `0` yields `1440`). -/
def diffSpec (nextMin nm : Int) : Int :=
  if (nextMin - nm) % 1440 = 0 then 1440 else (nextMin - nm) % 1440

/-- Spec reading of `clean`: the first (leftmost) `HH:MM` substring of `s`,
defaulting to `"00:00"` when no such substring exists. -/
def cleanSpec (s : String) : String :=
  match (List.range s.data.length).find? (fun i => isHHMMat (s.data.drop i)) with
  | some i => String.mk ((s.data.drop i).take 5)
  | none => "00:00"

/-! ## Concrete fixtures -/

/-- The §8 scenario schedule. -/
def sampleSchedule : PrayerTimes :=
  { Fajr := "05:00", Dhuhr := "12:00", Asr := "15:00", Maghrib := "18:00", Isha := "20:00" }

/-- A schedule with Dhuhr at 12:30. -/
def dhuhrSchedule : PrayerTimes :=
  { Fajr := "05:00", Dhuhr := "12:30", Asr := "15:00", Maghrib := "18:00", Isha := "20:00" }

/-- Audio enabled for Dhuhr. -/
def dhuhrOnly : PrayerKey → Bool := fun p => p == .Dhuhr

/-- Per-second ticks at 12:29:59, 12:30:00, 12:30:00 (duplicate evaluation),
and 12:30:01. -/
def dhuhrTicks : List ClockSample :=
  [⟨12, 29, 59⟩, ⟨12, 30, 0⟩, ⟨12, 30, 0⟩, ⟨12, 30, 1⟩]

/-- A paused controller state. -/
def pausedState : AdhanState :=
  { isAdhanPlaying := true, isAdhanPaused := true, adhanLocked := false,
    lastPlayedRef := some .Dhuhr, currentTime := 30 }

/-- A locked controller state whose re-entrancy guard is clear, so only the
lock can suppress a trigger. -/
def lockedState : AdhanState :=
  { isAdhanPlaying := false, isAdhanPaused := false, adhanLocked := true,
    lastPlayedRef := none, currentTime := 0 }

/-! ## Helper lemmas -/

/-- `hhmmToMinutes` never returns a negative value. -/
lemma hhmmToMinutes_nonneg (t : String) : 0 ≤ hhmmToMinutes t := by
  unfold hhmmToMinutes
  rcases h : (splitCols t.data).map jsNumber? with _ | ⟨_ | n, l⟩ <;> try positivity
  rcases l with _ | ⟨_ | m, l⟩ <;> positivity

/-- `nowMin` is never negative. -/
lemma nowMin_nonneg (c : ClockSample) : 0 ≤ nowMin c := by
  unfold nowMin; positivity

/-- Under a real clock, `nowMin` is below 1440. -/
lemma nowMin_lt (c : ClockSample) (hh : c.hours < 24) (hm : c.minutes < 60) :
    nowMin c < 1440 := by
  unfold nowMin
  have h1 : (c.hours : Int) ≤ 23 := by exact_mod_cast Nat.le_of_lt_succ hh
  have h2 : (c.minutes : Int) ≤ 59 := by exact_mod_cast Nat.le_of_lt_succ hm
  omega

/-- The backward scan of `currentPrayer` returns the latest prayer in order
whose time is `≤ now`, defaulting to Fajr. -/
lemma currentPrayer_eq_latest (nm : Int) (pt : PrayerTimes) :
    currentPrayer nm pt = currentPrayerSpec nm pt := by
  unfold currentPrayer currentPrayerSpec PRAYERS
  by_cases h1 : hhmmToMinutes (pt.get .Fajr) ≤ nm <;>
  by_cases h2 : hhmmToMinutes (pt.get .Dhuhr) ≤ nm <;>
  by_cases h3 : hhmmToMinutes (pt.get .Asr) ≤ nm <;>
  by_cases h4 : hhmmToMinutes (pt.get .Maghrib) ≤ nm <;>
  by_cases h5 : hhmmToMinutes (pt.get .Isha) ≤ nm <;>
  simp [List.find?, List.filter, h1, h2, h3, h4, h5, ge_iff_le]

/-- The forward scan of `nextPrayer` returns the earliest prayer in order
whose time is `> now`, defaulting to Fajr. -/
lemma nextPrayer_eq_earliest (nm : Int) (pt : PrayerTimes) :
    nextPrayer nm pt = nextPrayerSpec nm pt := by
  unfold nextPrayer nextPrayerSpec PRAYERS
  by_cases h1 : nm < hhmmToMinutes (pt.get .Fajr) <;>
  by_cases h2 : nm < hhmmToMinutes (pt.get .Dhuhr) <;>
  by_cases h3 : nm < hhmmToMinutes (pt.get .Asr) <;>
  by_cases h4 : nm < hhmmToMinutes (pt.get .Maghrib) <;>
  by_cases h5 : nm < hhmmToMinutes (pt.get .Isha) <;>
  simp [List.find?, List.filter, h1, h2, h3, h4, h5]

/-- `findHHMM` is the leftmost start index whose 5-character window matches
`\d{2}:\d{2}`. -/
lemma findHHMM_eq (cs : List Char) :
    findHHMM cs =
      ((List.range cs.length).find? (fun i => isHHMMat (cs.drop i))).map
        (fun i => String.mk ((cs.drop i).take 5)) := by
  induction cs with
  | nil => rfl
  | cons c rest ih =>
    by_cases h : isHHMMat (c :: rest)
    · simp [findHHMM, h, List.length_cons, List.range_succ_eq_map, List.find?_cons]
    · have h0 : isHHMMat (c :: rest) = false := by simpa using h
      simp only [List.length_cons, List.range_succ_eq_map, List.find?_cons, List.drop_zero, h0,
        List.find?_map, Option.map_map, Function.comp, Nat.succ_eq_add_one, List.drop_succ_cons]
      simpa [findHHMM, h0] using ih

/-- The code's `clean` agrees with the spec's leftmost-`HH:MM` reading. -/
lemma clean_eq_cleanSpec (s : String) : clean s = cleanSpec s := by
  unfold clean cleanSpec
  rw [findHHMM_eq s.data]
  rcases (List.range s.data.length).find? (fun i => isHHMMat (s.data.drop i)) with _ | i <;> rfl

/-! ## Claims -/

/-- Claim C1: for every clock sample and schedule, `currentPrayer` is the
latest prayer in the order `[Fajr, Dhuhr, Asr, Maghrib, Isha]` whose
time-of-day in minutes is `≤ now`'s minutes-of-day, defaulting to Fajr when
none is, and `nextPrayer` is the earliest prayer in that order whose
time-of-day is strictly greater than `now`'s minutes-of-day, defaulting to
Fajr when none is. -/
theorem deriveWindow_latest_earliest (c : ClockSample) (pt : PrayerTimes) :
    currentPrayer (nowMin c) pt = currentPrayerSpec (nowMin c) pt ∧
    nextPrayer (nowMin c) pt = nextPrayerSpec (nowMin c) pt :=
  ⟨currentPrayer_eq_latest (nowMin c) pt, nextPrayer_eq_earliest (nowMin c) pt⟩

/-- Claim C2: with Dhuhr at 12:30 and its audio enabled, the tick run
12:29:59, 12:30:00, 12:30:00 (duplicate evaluation), 12:30:01 produces exactly
one transition into Playing and exactly one play attempt: the remembered
last-fired prayer prevents re-firing within the same second. -/
theorem adhan_fires_once_per_prayer :
    countEnterPlaying initialAdhanState
        (runTicks true dhuhrSchedule dhuhrOnly initialAdhanState dhuhrTicks) = 1 ∧
    countFires initialAdhanState
        (runTicks true dhuhrSchedule dhuhrOnly initialAdhanState dhuhrTicks) = 1 ∧
    (runTicks true dhuhrSchedule dhuhrOnly initialAdhanState dhuhrTicks).map
        AdhanState.playState = [.Idle, .Playing, .Playing, .Playing] := by
  decide

/-- Claim C3: Locked is terminal — once `adhanLocked` holds, every tick (even
at a prayer moment with audio enabled), every pause and every resume command
leaves the state unchanged at Locked, and the stop command never unlocks. -/
theorem locked_terminal (playOk : Bool) (c : ClockSample) (pt : PrayerTimes)
    (en : PrayerKey → Bool) (s : AdhanState) (h : s.adhanLocked = true) :
    adhanAutoPlay playOk c pt en s = s ∧ pauseAdhan s = s ∧ resumeAdhan playOk s = s ∧
    s.playState = .Locked ∧ (stopAdhanCompletely s).playState = .Locked := by
  unfold adhanAutoPlay pauseAdhan resumeAdhan stopAdhanCompletely AdhanState.playState
  simp [h]

/-- Witness for C3: a locked state survives a genuine Dhuhr prayer-moment tick
with all audio enabled, plus pause and resume. -/
theorem locked_terminal_witness :
    adhanAutoPlay true ⟨12, 30, 0⟩ dhuhrSchedule (fun _ => true) lockedState = lockedState ∧
    pauseAdhan lockedState = lockedState ∧ resumeAdhan true lockedState = lockedState ∧
    lockedState.playState = .Locked ∧ (stopAdhanCompletely lockedState).playState = .Locked :=
  locked_terminal true ⟨12, 30, 0⟩ dhuhrSchedule (fun _ => true) lockedState (by decide)

/-- Claim C4: the countdown's minutes value equals
`(nextMinuteOfDay - nowMinuteOfDay) mod 1440` with a non-strictly-positive
subtraction mapped to a full day (`0` yields `1440`), formatted as zero-padded
`HH:MM`, and its seconds component is `59 - now.seconds`. -/
theorem computeCountdown_spec (c : ClockSample) (pt : PrayerTimes)
    (hh : c.hours < 24) (hm : c.minutes < 60) (hnext : nextMinOf c pt < 1440) :
    diffOf c pt = diffSpec (nextMinOf c pt) (nowMin c) ∧
    countdownOf c pt =
      pad (diffSpec (nextMinOf c pt) (nowMin c) / 60) ++ ":" ++
      pad (diffSpec (nextMinOf c pt) (nowMin c) % 60) ++ ":" ++
      pad (59 - (c.seconds : Int)) := by
  have h0 : 0 ≤ nextMinOf c pt := hhmmToMinutes_nonneg _
  have h1 : 0 ≤ nowMin c := nowMin_nonneg c
  have h2 : nowMin c < 1440 := nowMin_lt c hh hm
  have hd : diffOf c pt = diffSpec (nextMinOf c pt) (nowMin c) := by
    unfold diffOf diff diffSpec
    split_ifs <;> omega
  refine ⟨hd, ?_⟩
  have hpos : 0 < diffOf c pt := by
    unfold diffOf diff; split_ifs <;> omega
  unfold countdownOf countdown
  rw [hd] at hpos ⊢
  rw [Int.fdiv_eq_ediv _ (by norm_num), Int.tmod_eq_emod (le_of_lt hpos) (by norm_num)]

/-- Witness for C4: the §8 scenario at 16:00:30 (next prayer Maghrib at 18:00,
120 minutes away). -/
theorem computeCountdown_spec_witness :
    diffOf ⟨16, 0, 30⟩ sampleSchedule =
      diffSpec (nextMinOf ⟨16, 0, 30⟩ sampleSchedule) (nowMin ⟨16, 0, 30⟩) ∧
    countdownOf ⟨16, 0, 30⟩ sampleSchedule =
      pad (diffSpec (nextMinOf ⟨16, 0, 30⟩ sampleSchedule) (nowMin ⟨16, 0, 30⟩) / 60) ++ ":" ++
      pad (diffSpec (nextMinOf ⟨16, 0, 30⟩ sampleSchedule) (nowMin ⟨16, 0, 30⟩) % 60) ++ ":" ++
      pad (59 - (((⟨16, 0, 30⟩ : ClockSample).seconds : Nat) : Int)) :=
  computeCountdown_spec ⟨16, 0, 30⟩ sampleSchedule (by decide) (by decide) (by decide)

/-- Claim C5: `isPrayerMoment` holds exactly when the clock's hour and minute
equal the scheduled prayer's hour and minute and the seconds are 0. -/
theorem isPrayerMoment_iff (c : ClockSample) (pt : PrayerTimes) (p : PrayerKey)
    (H M : Nat) (hm : c.minutes < 60) (hM : M < 60)
    (ht : hhmmToMinutes (pt.get p) = (H : Int) * 60 + (M : Int)) :
    isPrayerMoment c pt p = true ↔ c.hours = H ∧ c.minutes = M ∧ c.seconds = 0 := by
  unfold isPrayerMoment nowMin
  rw [ht]
  simp only [Bool.and_eq_true, beq_iff_eq]
  constructor
  · rintro ⟨h1, h2⟩
    have hh : c.hours = H ∧ c.minutes = M := by
      constructor <;> omega
    exact ⟨hh.1, hh.2, h2⟩
  · rintro ⟨h1, h2, h3⟩
    subst h1 h2
    exact ⟨rfl, h3⟩

/-- Witness for C5: 12:30:00 is the Dhuhr prayer moment of `dhuhrSchedule`. -/
theorem isPrayerMoment_iff_witness :
    isPrayerMoment ⟨12, 30, 0⟩ dhuhrSchedule .Dhuhr = true :=
  (isPrayerMoment_iff ⟨12, 30, 0⟩ dhuhrSchedule .Dhuhr 12 30 (by decide) (by decide)
    (by decide)).mpr ⟨rfl, rfl, rfl⟩

/-- Claim C6: the countdown minutes value is strictly positive for every clock
sample and schedule, and the midnight wrap `now = 23:50` with next prayer Fajr
at 05:00 yields 310 minutes, displayed as `05:10:SS`. -/
theorem countdown_minutes_pos (c : ClockSample) (pt : PrayerTimes)
    (hh : c.hours < 24) (hm : c.minutes < 60) :
    0 < diffOf c pt ∧
    (nowMin c = 1430 → nextMinOf c pt = 300 →
      diffOf c pt = 310 ∧ countdownOf c pt = "05:10:" ++ pad (59 - (c.seconds : Int))) := by
  have h0 : 0 ≤ nextMinOf c pt := hhmmToMinutes_nonneg _
  have h2 : nowMin c < 1440 := nowMin_lt c hh hm
  have hpos : 0 < diffOf c pt := by unfold diffOf diff; split_ifs <;> omega
  refine ⟨hpos, fun hnow hnext => ?_⟩
  have hd : diffOf c pt = 310 := by unfold diffOf diff; rw [hnow, hnext]; norm_num
  refine ⟨hd, ?_⟩
  unfold countdownOf countdown
  rw [hd]
  have hf : Int.fdiv 310 60 = 5 := by decide
  have ht : Int.tmod 310 60 = 10 := by decide
  rw [hf, ht]
  rfl

/-- Witness for C6: 23:50:07 against the §8 schedule (all prayer times before
23:50, so the next prayer wraps to Fajr at 05:00). -/
theorem countdown_minutes_pos_witness :
    0 < diffOf ⟨23, 50, 7⟩ sampleSchedule ∧ diffOf ⟨23, 50, 7⟩ sampleSchedule = 310 ∧
      countdownOf ⟨23, 50, 7⟩ sampleSchedule = "05:10:52" := by
  have h := countdown_minutes_pos ⟨23, 50, 7⟩ sampleSchedule (by decide) (by decide)
  have h2 := h.2 (by decide) (by decide)
  exact ⟨h.1, h2.1, h2.2.trans (by decide)⟩

/-- Claim C7: a rejected `play()` is swallowed — the controller's playback
fields and derived playback state are exactly what they were before the
attempt, both for the automatic prayer-moment trigger and for the user resume
command (which changes nothing at all). -/
theorem play_rejection_swallowed (c : ClockSample) (pt : PrayerTimes)
    (en : PrayerKey → Bool) (s : AdhanState) :
    (adhanAutoPlay false c pt en s).isAdhanPlaying = s.isAdhanPlaying ∧
    (adhanAutoPlay false c pt en s).isAdhanPaused = s.isAdhanPaused ∧
    (adhanAutoPlay false c pt en s).adhanLocked = s.adhanLocked ∧
    (adhanAutoPlay false c pt en s).playState = s.playState ∧
    resumeAdhan false s = s := by
  simp only [adhanAutoPlay, resumeAdhan]
  split_ifs <;> simp_all [AdhanState.playState]

/-- Claim C8: the schedule record always carries all five prayer names; every
entry is `"00:00"` before the fetch resolves (or forever, if it fails); and a
resolved fetch maps each provider string to its first `HH:MM` substring,
defaulting to `"00:00"` when none exists. -/
theorem prayerSchedule_invariant :
    (∀ p, defaultPrayerTimes.get p = "00:00") ∧
    (∀ t p, (fetchTimings t).get p = cleanSpec (t p)) := by
  constructor
  · intro p; cases p <;> rfl
  · intro t p
    cases p <;> simp [fetchTimings, PrayerTimes.get, clean_eq_cleanSpec]

/-- Claim C9: pause is a no-op whenever the playback state is not Playing
(already paused, idle, or locked) and resume is a no-op whenever the playback
state is not Paused or is locked; in every no-op case the whole state record
is unchanged.  The hypothesis is the controller's reachability invariant that
`isAdhanPaused` implies `isAdhanPlaying`. -/
theorem pause_resume_noop (playOk : Bool) (s : AdhanState)
    (hinv : s.isAdhanPaused = true → s.isAdhanPlaying = true) :
    (s.playState ≠ .Playing → pauseAdhan s = s) ∧
    (s.playState ≠ .Paused → resumeAdhan playOk s = s) ∧
    (s.adhanLocked = true → pauseAdhan s = s ∧ resumeAdhan playOk s = s) := by
  obtain ⟨pl, pa, lk, lp, ct⟩ := s
  unfold pauseAdhan resumeAdhan AdhanState.playState at *
  cases pl <;> cases pa <;> cases lk <;> cases playOk <;> simp_all

/-- Witness for C9: pausing an already-paused state and resuming a locked
state both leave the state unchanged. -/
theorem pause_resume_noop_witness :
    pauseAdhan pausedState = pausedState ∧ resumeAdhan true lockedState = lockedState := by
  refine ⟨(pause_resume_noop true pausedState (by decide)).1 (by decide), ?_⟩
  exact ((pause_resume_noop true lockedState (by decide)).2.2 (by decide)).2

/-- Claim C10: with the default all-midnight schedule, every clock sample
derives `currentPrayer = Isha` (the backward scan matches Isha first, since
every minutes-of-day value is `≥ 0`) and `nextPrayer = Fajr` (no time is
strictly greater than `now`, so the forward scan falls through). -/
theorem default_schedule_window (c : ClockSample) :
    currentPrayer (nowMin c) defaultPrayerTimes = .Isha ∧
    nextPrayer (nowMin c) defaultPrayerTimes = .Fajr := by
  have h0 : 0 ≤ nowMin c := nowMin_nonneg c
  have hz : hhmmToMinutes "00:00" = 0 := by decide
  unfold currentPrayer nextPrayer PRAYERS defaultPrayerTimes
  constructor <;> simp [List.find?, PrayerTimes.get, hz, h0, not_lt.mpr h0, ge_iff_le]

end Athan
